import Mathlib

/-!
Verification of the mclib packet-decode core, vector arithmetic and
block-entity composition.

The repository excerpt contains three headers:
* Packets/PacketFactory.h — declaration of the packet factory
  (CreatePacket / FreePacket); its body, the DataBuffer cursor, the
  registry and the packet catalogue are not in the excerpt, so those
  parts are modelled from the specification.
* Vector.h — the full 3D vector template; embedded directly.
* include/mclib/block/Dropper.h — the Dropper block entity; its base
  classes and the ImportNBT body are modelled from the specification.

Machine bytes are Nat values (reduced mod 256 where the machine reads
them); 64-bit signed components are Int with explicit two's-complement
wrap-around.
-/

namespace Mclib

/-- Modelled from the spec: the error taxonomy of the decode core (§7).
`OutOfBounds`, `MalformedHeader` and `TrailingOrMissingData` are the typed
decode failures the core reports to the caller. -/
inductive DecodeError
| OutOfBounds
| MalformedHeader
| TrailingOrMissingData
deriving DecidableEq

/-- Modelled from the spec: the Binary Cursor (`DataBuffer`-equivalent, §3,
§4.1): a borrowed byte sequence plus a current read offset.  The underlying
bytes are never mutated by the cursor itself. -/
structure DataBuffer where
  data : List Nat
  offset : Nat
deriving DecidableEq

/-- Total length of the underlying byte sequence. -/
def DataBuffer.length (b : DataBuffer) : Nat := b.data.length

/-- Modelled from the spec: `remaining()` — bytes left from the current
offset to the end of the buffer. -/
def DataBuffer.remaining (b : DataBuffer) : Nat := b.length - b.offset

/-- Modelled from the spec: `readBytes(n)` (§4.1).  Fails with `OutOfBounds`
and leaves the cursor unchanged when fewer than `n` bytes remain; otherwise
yields the next `n` bytes and advances the offset by exactly `n`. -/
def DataBuffer.readBytes (b : DataBuffer) (n : Nat) :
    Except DecodeError (List Nat) × DataBuffer :=
  if b.remaining < n then (.error .OutOfBounds, b)
  else (.ok ((b.data.drop b.offset).take n), { b with offset := b.offset + n })

/-- Big-endian combination of a byte list into one unsigned value; each
entry is reduced mod 256 as the machine would read one byte. -/
def beCombine : List Nat → Nat
  | [] => 0
  | byte :: rest => byte % 256 * 256 ^ rest.length + beCombine rest

/-- Modelled from the spec: a fixed-width big-endian unsigned read of `n`
bytes (§4.1: all multi-byte fixed-width reads use network byte order).
Fails with `OutOfBounds`, cursor unchanged, when fewer than `n` remain. -/
def DataBuffer.readFixed (b : DataBuffer) (n : Nat) :
    Except DecodeError Nat × DataBuffer :=
  if b.remaining < n then (.error .OutOfBounds, b)
  else (.ok (beCombine ((b.data.drop b.offset).take n)),
        { b with offset := b.offset + n })

/-- Modelled from the spec: `readU8`. -/
def DataBuffer.readU8 (b : DataBuffer) : Except DecodeError Nat × DataBuffer :=
  b.readFixed 1

/-- Modelled from the spec: `readU16` (big-endian). -/
def DataBuffer.readU16 (b : DataBuffer) : Except DecodeError Nat × DataBuffer :=
  b.readFixed 2

/-- Modelled from the spec: `readU32` (big-endian). -/
def DataBuffer.readU32 (b : DataBuffer) : Except DecodeError Nat × DataBuffer :=
  b.readFixed 4

/-- Modelled from the spec: `readU64` (big-endian). -/
def DataBuffer.readU64 (b : DataBuffer) : Except DecodeError Nat × DataBuffer :=
  b.readFixed 8

/-- Modelled from the spec: the varint decode loop (§4.1): 7 bits per byte,
low groups first, the high bit of each byte is the continuation bit.  `i`
counts bytes already consumed, `acc` the value assembled so far.  After 5
bytes without a terminating byte the decode fails with `MalformedHeader`
(bounded read from malformed input); running out of buffer fails with
`OutOfBounds`.  On success returns the value and the bytes consumed. -/
def decodeVarIntCore (l : List Nat) (i acc : Nat) :
    Except DecodeError (Nat × Nat) :=
  if 5 ≤ i then .error .MalformedHeader
  else
    match l with
    | [] => .error .OutOfBounds
    | byte :: rest =>
      if byte % 256 < 128 then .ok (acc + byte % 256 * 128 ^ i, i + 1)
      else decodeVarIntCore rest (i + 1) (acc + (byte % 256 - 128) * 128 ^ i)

/-- Modelled from the spec: `readVarInt` (§4.1).  On any failure the cursor
offset is left unchanged so that the caller can abort the decode cleanly. -/
def DataBuffer.readVarInt (b : DataBuffer) :
    Except DecodeError Nat × DataBuffer :=
  match decodeVarIntCore (b.data.drop b.offset) 0 0 with
  | .error e => (.error e, b)
  | .ok (v, n) => (.ok v, { b with offset := b.offset + n })

/-- Varint encoder: emits `v` in low-first 7-bit groups with continuation
bits, using `fuel` as the byte bound. -/
def encodeVarIntAux : Nat → Nat → List Nat
  | 0, _ => []
  | fuel + 1, v =>
    if v < 128 then [v] else (v % 128 + 128) :: encodeVarIntAux fuel (v / 128)

/-- Varint encoder for a 32-bit value (at most 5 bytes). -/
def encodeVarInt (v : Nat) : List Nat := encodeVarIntAux 5 (v % 2 ^ 32)

/-- Modelled from the spec: `readString(maxLen)` (§4.1): a varint length
followed by that many bytes; fails if the declared length exceeds
`remaining()` or the configured maximum, cursor unchanged on failure. -/
def DataBuffer.readString (b : DataBuffer) (maxLen : Nat) :
    Except DecodeError (List Nat) × DataBuffer :=
  match b.readVarInt with
  | (.error e, _) => (.error e, b)
  | (.ok len, b1) =>
    if maxLen < len then (.error .OutOfBounds, b)
    else
      match b1.readBytes len with
      | (.error e, _) => (.error e, b)
      | (.ok s, b2) => (.ok s, b2)

example : DataBuffer.readVarInt ⟨[5], 0⟩ = (.ok 5, ⟨[5], 1⟩) := rfl

example : DataBuffer.readVarInt ⟨[0xAC, 0x02], 0⟩ = (.ok 300, ⟨[0xAC, 0x02], 2⟩) :=
  rfl

example : encodeVarInt 300 = [0xAC, 0x02] := rfl

example : DataBuffer.readVarInt ⟨[0x80, 0x80], 0⟩ =
    (.error .OutOfBounds, ⟨[0x80, 0x80], 0⟩) := rfl

example : DataBuffer.readVarInt ⟨[0x80, 0x80, 0x80, 0x80, 0x80, 0x01], 0⟩ =
    (.error .MalformedHeader, ⟨[0x80, 0x80, 0x80, 0x80, 0x80, 0x01], 0⟩) :=
  rfl

/-- The Protocol State enumeration (Protocol.h declares it; §2: Handshake,
Status, Login, Play). -/
inductive ProtocolState
| Handshake
| Status
| Login
| Play
deriving DecidableEq

/-- Modelled from the spec: the Handshake packet of the concrete scenario in
§8 — protocol version (varint), server address (varint-length-prefixed
string, kept as raw bytes), port (big-endian u16), next state (varint). -/
structure HandshakePacket where
  protocolVersion : Nat
  serverAddress : List Nat
  port : Nat
  nextState : Nat
deriving DecidableEq

/-- Field bounds under which a HandshakePacket is representable on the
wire: varint fields are 32-bit, the port is a u16, address bytes are raw
machine bytes. -/
def HandshakePacket.wf (p : HandshakePacket) : Prop :=
  p.protocolVersion < 2 ^ 32 ∧ p.serverAddress.length < 2 ^ 32 ∧
    p.port < 2 ^ 16 ∧ p.nextState < 2 ^ 32

instance (p : HandshakePacket) : Decidable p.wf := by
  unfold HandshakePacket.wf; infer_instance

/-- Wire encoding of a HandshakePacket body (everything after the packet
id): version varint, address length varint, address bytes, port as two
big-endian bytes, next-state varint. -/
def HandshakePacket.serialize (p : HandshakePacket) : List Nat :=
  encodeVarInt p.protocolVersion ++ encodeVarInt p.serverAddress.length ++
    p.serverAddress ++ [p.port / 256, p.port % 256] ++ encodeVarInt p.nextState

/-- Modelled from the spec: the Handshake packet's own deserialization
(§2: every concrete packet knows how to consume itself from the cursor). -/
def HandshakePacket.deserializeBody (b : DataBuffer) :
    Except DecodeError HandshakePacket × DataBuffer :=
  match b.readVarInt with
  | (.error e, b1) => (.error e, b1)
  | (.ok pv, b1) =>
    match b1.readVarInt with
    | (.error e, b2) => (.error e, b2)
    | (.ok len, b2) =>
      match b2.readBytes len with
      | (.error e, b3) => (.error e, b3)
      | (.ok addr, b3) =>
        match b3.readU16 with
        | (.error e, b4) => (.error e, b4)
        | (.ok port, b4) =>
          match b4.readVarInt with
          | (.error e, b5) => (.error e, b5)
          | (.ok ns, b5) => (.ok ⟨pv, addr, port, ns⟩, b5)

/-- Modelled from the spec: the polymorphic Packet representation (§2), as a
tagged variant over the concrete packet kinds of the modelled catalogue. -/
inductive Packet
| Handshake (p : HandshakePacket)
deriving DecidableEq

/-- Modelled from the spec: the registered constructor-plus-deserialize
action for the Handshake packet: obtain an empty instance and populate it
from the cursor (§4.3 step 4, fused into one function here because the
model is pure). -/
def handshakeCtor (b : DataBuffer) : Except DecodeError Packet × DataBuffer :=
  match HandshakePacket.deserializeBody b with
  | (.error e, b1) => (.error e, b1)
  | (.ok p, b1) => (.ok (.Handshake p), b1)

/-- Modelled from the spec: the Packet Registry lookup (§4.2): a read-only
map from (Protocol State, numeric id) to a packet-construction function;
absence of an entry is a normal outcome.  The modelled catalogue registers
the Handshake packet at (Handshake, 0x00) per the §8 concrete scenario. -/
def PacketRegistry.lookup (state : ProtocolState) (id : Nat) :
    Option (DataBuffer → Except DecodeError Packet × DataBuffer) :=
  match state, id with
  | .Handshake, 0 => some handshakeCtor
  | _, _ => none

/-- Modelled from the spec: the result of `CreatePacket` (§4.3, §6): a fully
populated packet, the distinguished unrecognized-packet outcome carrying the
raw (state, id), or a typed decode failure. -/
inductive CreateResult
| packet (p : Packet)
| unrecognized (state : ProtocolState) (id : Nat)
| failure (e : DecodeError)
deriving DecidableEq

/-- Modelled from the spec: `PacketFactory::CreatePacket(state, data, length)`
(§4.3).  Reads the leading varint id (failure → `MalformedHeader`), queries
the registry (no entry → `unrecognized` with the raw id and state), runs the
registered deserialization, and checks that exactly `length` bytes were
consumed (mismatch → `TrailingOrMissingData`). -/
def CreatePacket (state : ProtocolState) (data : DataBuffer) (length : Nat) :
    CreateResult × DataBuffer :=
  let start := data.offset
  match data.readVarInt with
  | (.error _, b1) => (.failure .MalformedHeader, b1)
  | (.ok id, b1) =>
    match PacketRegistry.lookup state id with
    | none => (.unrecognized state id, b1)
    | some ctor =>
      match ctor b1 with
      | (.error e, b2) => (.failure e, b2)
      | (.ok p, b2) =>
        if b2.offset - start = length then (.packet p, b2)
        else (.failure .TrailingOrMissingData, b2)

/-- Full wire encoding of a Handshake message: varint packet id 0x00, then
the packet body. -/
def handshakeMessage (p : HandshakePacket) : List Nat :=
  encodeVarInt 0 ++ p.serialize

example :
    (CreatePacket .Play ⟨[5], 0⟩ 1).1 = .unrecognized .Play 5 := rfl

example :
    (CreatePacket .Play ⟨[], 0⟩ 0).1 = .failure .MalformedHeader := rfl

/-- Modelled from the spec: the allocation state of packets handed out by the
factory (§3 ownership, §9): `live` is the set of packet handles currently
owned by callers, `next` the next fresh handle. -/
structure PacketHeap where
  live : List Nat
  next : Nat
deriving DecidableEq

/-- A well-formed heap hands out fresh handles: every live handle is below
`next`. -/
def PacketHeap.wfh (h : PacketHeap) : Prop := ∀ q ∈ h.live, q < h.next

/-- Modelled from the spec: the allocation side of `CreatePacket` (§4.3 step 6:
ownership of a fresh packet passes to the caller). -/
def allocPacket (h : PacketHeap) : Nat × PacketHeap :=
  (h.next, ⟨h.next :: h.live, h.next + 1⟩)

/-- Modelled from the spec: `PacketFactory::FreePacket(packet)` (§4.3, §8):
releases a packet previously returned by `CreatePacket`; releasing a handle
that is not live is rejected as a no-op, never a double-free. -/
def FreePacket (h : PacketHeap) (p : Nat) : PacketHeap :=
  if p ∈ h.live then ⟨h.live.erase p, h.next⟩ else h

/-- Block-entity type tag (BlockEntityType in the headers the Dropper uses;
not in the excerpt, carried opaquely as a numeric tag). -/
def BlockEntityType := Nat
deriving DecidableEq

/-- A 64-bit integer 3D vector position value, components kept as Int with
the int64 range tracked separately (Vector3i = Vector3 of int64_t). -/
structure Vector3i where
  x : Int
  y : Int
  z : Int
deriving DecidableEq

/-- Modelled from the spec: the structured-tag (NBT) data format — a
recursive, self-describing tree consumed opaquely by entities (§1). -/
inductive NBT
| compound (entries : List (List Nat × NBT))
| tagString (s : List Nat)
| tagInt (v : Int)
| tagList (items : List NBT)

/-- Modelled from the spec: the base block entity capability — constructed
from a block-entity type and a position (Dropper.h line 15 forwards both to
the BlockEntity base). -/
structure BlockEntity where
  type : BlockEntityType
  position : Vector3i

/-- Modelled from the spec: the inventory capability mixin (InventoryBlock);
holds the imported item tags. -/
structure InventoryBlock where
  items : List NBT

/-- Modelled from the spec: the nameable capability mixin (Nameable); holds
an optional display name as raw bytes. -/
structure Nameable where
  name : Option (List Nat)

/-- The Dropper block entity (Dropper.h line 13): one concrete type composing
the base block entity, the inventory capability and the nameable
capability — and nothing else; it holds no reference into the decode core. -/
structure Dropper extends BlockEntity, InventoryBlock, Nameable

/-- The Dropper constructor (Dropper.h line 15): forwards (type, position) to
the BlockEntity base; the other capabilities start out empty. -/
def Dropper.create (t : BlockEntityType) (pos : Vector3i) : Dropper :=
  ⟨⟨t, pos⟩, ⟨[]⟩, ⟨none⟩⟩

/-- Modelled from the spec: `Dropper::ImportNBT` (Dropper.h line 16; §3:
block entities import structured-tag content once a packet or storage layer
hands it to them, and report whether the import succeeded).  A compound tag
imports its list-valued entries as inventory content and its first
string-valued entry as the display name; any non-compound tag is rejected. -/
def Dropper.ImportNBT (d : Dropper) (n : NBT) : Bool × Dropper :=
  match n with
  | .compound entries =>
    let listsOf := entries.filterMap fun e =>
      match e.2 with
      | .tagList items => some items
      | _ => none
    let nameOf := entries.findSome? fun e =>
      match e.2 with
      | .tagString s => some s
      | _ => none
    (true, { d with items := listsOf.flatten, name := nameOf })
  | _ => (false, d)

/-- Two's-complement wrap of an Int into the 64-bit signed range, the model
of int64_t arithmetic where overflow matters. -/
def wrap64 (v : Int) : Int :=
  (v + 9223372036854775808) % 18446744073709551616 - 9223372036854775808

/-- Membership of all three components in the int64 range. -/
def Vector3i.isInt64 (v : Vector3i) : Prop :=
  -9223372036854775808 ≤ v.x ∧ v.x < 9223372036854775808 ∧
    -9223372036854775808 ≤ v.y ∧ v.y < 9223372036854775808 ∧
    -9223372036854775808 ≤ v.z ∧ v.z < 9223372036854775808

instance (v : Vector3i) : Decidable v.isInt64 := by
  unfold Vector3i.isInt64; infer_instance

/-- The free operator+ on Vector3 (Vector.h lines 219-222), at int64_t:
component-wise machine addition. -/
def Vector3i.add (v1 v2 : Vector3i) : Vector3i :=
  ⟨wrap64 (v1.x + v2.x), wrap64 (v1.y + v2.y), wrap64 (v1.z + v2.z)⟩

/-- The free operator- on Vector3 (Vector.h lines 224-227), at int64_t:
component-wise machine subtraction. -/
def Vector3i.sub (v1 v2 : Vector3i) : Vector3i :=
  ⟨wrap64 (v1.x - v2.x), wrap64 (v1.y - v2.y), wrap64 (v1.z - v2.z)⟩

/-- The free operator< on Vector3 (Vector.h lines 175-192): compares z, then
y, then x. -/
def Vector3i.lt (lhs rhs : Vector3i) : Bool :=
  if lhs.z < rhs.z then true
  else if rhs.z < lhs.z then false
  else if lhs.y < rhs.y then true
  else if rhs.y < lhs.y then false
  else if lhs.x < rhs.x then true
  else false

/-- The ordering the claim describes: lexicographic on the triple (z, y, x).
This definition follows the claim's words, to be compared against the
source-derived `Vector3i.lt`. -/
def Vector3i.lexZYX (v1 v2 : Vector3i) : Prop :=
  v1.z < v2.z ∨ (v1.z = v2.z ∧ (v1.y < v2.y ∨ (v1.y = v2.y ∧ v1.x < v2.x)))

/-! ### Helper lemmas: varint codec -/

theorem decodeVarIntCore_nil (i acc : Nat) :
    decodeVarIntCore [] i acc =
      if 5 ≤ i then .error .MalformedHeader else .error .OutOfBounds := rfl

theorem decodeVarIntCore_cons (byte : Nat) (rest : List Nat) (i acc : Nat) :
    decodeVarIntCore (byte :: rest) i acc =
      if 5 ≤ i then .error .MalformedHeader
      else if byte % 256 < 128 then .ok (acc + byte % 256 * 128 ^ i, i + 1)
      else decodeVarIntCore rest (i + 1)
        (acc + (byte % 256 - 128) * 128 ^ i) := rfl

theorem decodeVarIntCore_encode (fuel : Nat) :
    ∀ v i acc rest, 1 ≤ fuel → v < 128 ^ fuel → fuel + i ≤ 5 →
    decodeVarIntCore (encodeVarIntAux fuel v ++ rest) i acc =
      .ok (acc + v * 128 ^ i, i + (encodeVarIntAux fuel v).length) := by
  induction fuel with
  | zero => intro v i acc rest h1 _ _; omega
  | succ fuel ih =>
    intro v i acc rest _ hv hf
    by_cases hsmall : v < 128
    · simp only [encodeVarIntAux, if_pos hsmall, List.cons_append,
        List.nil_append]
      rw [decodeVarIntCore_cons]
      have hi : ¬ 5 ≤ i := by omega
      have hm : v % 256 = v := Nat.mod_eq_of_lt (by omega)
      rw [if_neg hi]
      simp [hm, hsmall]
    · simp only [encodeVarIntAux, if_neg hsmall, List.cons_append]
      rw [decodeVarIntCore_cons]
      have hi : ¬ 5 ≤ i := by omega
      have hb : (v % 128 + 128) % 256 = v % 128 + 128 :=
        Nat.mod_eq_of_lt (by omega)
      rw [if_neg hi]
      have hbig : ¬ (v % 128 + 128) % 256 < 128 := by omega
      rw [if_neg hbig]
      have hfuel1 : 1 ≤ fuel := by
        by_contra hc
        have hf0 : fuel = 0 := by omega
        subst hf0
        have h128 : (128 : Nat) ^ (0 + 1) = 128 := by norm_num
        rw [h128] at hv
        omega
      have hvr : v / 128 < 128 ^ fuel := by
        have h2 : v < 128 ^ (fuel + 1) := hv
        rw [pow_succ] at h2
        exact Nat.div_lt_of_lt_mul (by omega)
      have hih := ih (v / 128) (i + 1)
        (acc + ((v % 128 + 128) % 256 - 128) * 128 ^ i) rest hfuel1 hvr
        (by omega)
      rw [hih]
      have hsub : (v % 128 + 128) % 256 - 128 = v % 128 := by omega
      have hmd : v % 128 + 128 * (v / 128) = v := Nat.mod_add_div v 128
      have hval : acc + ((v % 128 + 128) % 256 - 128) * 128 ^ i +
          v / 128 * 128 ^ (i + 1) = acc + v * 128 ^ i := by
        rw [hsub, pow_succ]
        calc acc + v % 128 * 128 ^ i + v / 128 * (128 ^ i * 128)
            = acc + (v % 128 + 128 * (v / 128)) * 128 ^ i := by ring
          _ = acc + v * 128 ^ i := by rw [hmd]
      rw [hval]
      simp only [List.length_cons]
      have hlen2 : i + 1 + (encodeVarIntAux fuel (v / 128)).length
          = i + ((encodeVarIntAux fuel (v / 128)).length + 1) := by omega
      rw [hlen2]

theorem readVarInt_drop (b : DataBuffer) (v : Nat) (rest : List Nat)
    (hv : v < 2 ^ 32) (h : b.data.drop b.offset = encodeVarInt v ++ rest) :
    b.readVarInt = (.ok v, ⟨b.data, b.offset + (encodeVarInt v).length⟩) := by
  have hmod : v % 2 ^ 32 = v := Nat.mod_eq_of_lt hv
  have hlt : v < 128 ^ 5 := by
    have : (2 : Nat) ^ 32 ≤ 128 ^ 5 := by norm_num
    omega
  have hcore := decodeVarIntCore_encode 5 v 0 0 rest (by omega) hlt (by omega)
  unfold DataBuffer.readVarInt
  rw [h]
  unfold encodeVarInt
  rw [hmod]
  rw [hcore]
  simp only [Nat.zero_add, pow_zero, mul_one]

theorem drop_chunk (data : List Nat) (off k : Nat) (chunk rest : List Nat)
    (h : data.drop off = chunk ++ rest) (hk : chunk.length = k) :
    data.drop (off + k) = rest := by
  have h1 : data.drop (off + k) = (data.drop off).drop k := by
    rw [List.drop_drop]
  rw [h1, h, ← hk, List.drop_left]

theorem readBytes_drop (b : DataBuffer) (mid rest : List Nat)
    (h : b.data.drop b.offset = mid ++ rest) :
    b.readBytes mid.length = (.ok mid, ⟨b.data, b.offset + mid.length⟩) := by
  have hrem : b.remaining = mid.length + rest.length := by
    have := congrArg List.length h
    simp only [List.length_drop, List.length_append] at this
    unfold DataBuffer.remaining DataBuffer.length
    omega
  unfold DataBuffer.readBytes
  rw [hrem]
  rw [if_neg (by omega)]
  rw [h, List.take_left]

theorem readU16_drop (b : DataBuffer) (p : Nat) (rest : List Nat)
    (hp : p < 2 ^ 16)
    (h : b.data.drop b.offset = [p / 256, p % 256] ++ rest) :
    b.readU16 = (.ok p, ⟨b.data, b.offset + 2⟩) := by
  have hrem : b.remaining = 2 + rest.length := by
    have := congrArg List.length h
    simp only [List.length_drop, List.length_append, List.length_cons,
      List.length_nil] at this
    unfold DataBuffer.remaining DataBuffer.length
    omega
  unfold DataBuffer.readU16 DataBuffer.readFixed
  rw [hrem]
  rw [if_neg (by omega)]
  have htake : (b.data.drop b.offset).take 2 = [p / 256, p % 256] := by
    rw [h]
    rfl
  rw [htake]
  have hval : beCombine [p / 256, p % 256] = p := by
    unfold beCombine beCombine beCombine
    simp only [List.length_cons, List.length_nil]
    have h1 : p / 256 < 256 := by omega
    have h2 : p / 256 % 256 = p / 256 := Nat.mod_eq_of_lt h1
    have h3 : p % 256 % 256 = p % 256 := Nat.mod_eq_of_lt (by omega)
    rw [h2, h3]
    simp only [pow_one, pow_zero, Nat.mul_one]
    omega
  rw [hval]

theorem decodeVarIntCore_allCont (l : List Nat) :
    ∀ i acc, (∀ x ∈ l.take (5 - i), 128 ≤ x % 256) →
    decodeVarIntCore l i acc =
      .error (if 5 - i ≤ l.length then .MalformedHeader else .OutOfBounds) := by
  induction l with
  | nil =>
    intro i acc _
    rw [decodeVarIntCore_nil]
    by_cases h5 : 5 ≤ i
    · have hc : 5 - i ≤ ([] : List Nat).length := by
        simp only [List.length_nil]; omega
      rw [if_pos h5, if_pos hc]
    · have hc : ¬ 5 - i ≤ ([] : List Nat).length := by
        simp only [List.length_nil]; omega
      rw [if_neg h5, if_neg hc]
  | cons byte rest ih =>
    intro i acc h
    rw [decodeVarIntCore_cons]
    by_cases h5 : 5 ≤ i
    · have hc : 5 - i ≤ (byte :: rest).length := by
        simp only [List.length_cons]; omega
      rw [if_pos h5, if_pos hc]
    · rw [if_neg h5]
      have hmem : byte ∈ (byte :: rest).take (5 - i) := by
        obtain ⟨k, hk⟩ : ∃ k, 5 - i = k + 1 := ⟨5 - i - 1, by omega⟩
        rw [hk, List.take_succ_cons]
        exact List.mem_cons_self byte (rest.take k)
      have hbyte : 128 ≤ byte % 256 := h byte hmem
      have hnb : ¬ byte % 256 < 128 := by omega
      rw [if_neg hnb]
      have hsub : ∀ x ∈ rest.take (5 - (i + 1)), 128 ≤ x % 256 := by
        intro x hx
        apply h
        have h51 : 5 - i = (5 - (i + 1)) + 1 := by omega
        rw [h51, List.take_succ_cons]
        exact List.mem_cons_of_mem byte hx
      rw [ih (i + 1) (acc + (byte % 256 - 128) * 128 ^ i) hsub]
      have hiff2 : (5 - (i + 1) ≤ rest.length) ↔
          (5 - i ≤ (byte :: rest).length) := by
        simp only [List.length_cons]
        omega
      rw [if_congr hiff2 rfl rfl]

theorem readVarInt_allCont (b : DataBuffer)
    (h : ∀ x ∈ (b.data.drop b.offset).take 5, 128 ≤ x % 256) :
    b.readVarInt =
      (.error (if 5 ≤ b.remaining then .MalformedHeader else .OutOfBounds),
        b) := by
  have hiff : (5 - 0 ≤ (b.data.drop b.offset).length) ↔ (5 ≤ b.remaining) := by
    unfold DataBuffer.remaining DataBuffer.length
    rw [List.length_drop]
  have hcore2 : decodeVarIntCore (b.data.drop b.offset) 0 0 =
      .error (if 5 ≤ b.remaining then .MalformedHeader else .OutOfBounds) := by
    rw [decodeVarIntCore_allCont (b.data.drop b.offset) 0 0 (by exact h)]
    exact congrArg Except.error (if_congr hiff rfl rfl)
  unfold DataBuffer.readVarInt
  rw [hcore2]

/-! ### Helper lemmas: Handshake round-trip -/

theorem deserializeBody_serialize (p : HandshakePacket) (hp : p.wf)
    (b : DataBuffer) (rest : List Nat)
    (h : b.data.drop b.offset = p.serialize ++ rest) :
    HandshakePacket.deserializeBody b =
      (.ok p, ⟨b.data, b.offset + p.serialize.length⟩) := by
  obtain ⟨hpv, haddr, hport, hns⟩ := hp
  have h0 : b.data.drop b.offset =
      encodeVarInt p.protocolVersion ++ (encodeVarInt p.serverAddress.length ++
        (p.serverAddress ++ ([p.port / 256, p.port % 256] ++
          (encodeVarInt p.nextState ++ rest)))) := by
    rw [h]
    simp [HandshakePacket.serialize, List.append_assoc]
  have h1 := readVarInt_drop b p.protocolVersion
    (encodeVarInt p.serverAddress.length ++ (p.serverAddress ++
      ([p.port / 256, p.port % 256] ++ (encodeVarInt p.nextState ++ rest))))
    hpv h0
  have d1 : b.data.drop (b.offset + (encodeVarInt p.protocolVersion).length) =
      encodeVarInt p.serverAddress.length ++ (p.serverAddress ++
        ([p.port / 256, p.port % 256] ++ (encodeVarInt p.nextState ++ rest))) :=
    drop_chunk b.data b.offset (encodeVarInt p.protocolVersion).length
      (encodeVarInt p.protocolVersion) _ h0 rfl
  have h2 := readVarInt_drop
    ⟨b.data, b.offset + (encodeVarInt p.protocolVersion).length⟩
    p.serverAddress.length
    (p.serverAddress ++ ([p.port / 256, p.port % 256] ++
      (encodeVarInt p.nextState ++ rest)))
    haddr d1
  have d2 : b.data.drop (b.offset + (encodeVarInt p.protocolVersion).length +
      (encodeVarInt p.serverAddress.length).length) =
      p.serverAddress ++ ([p.port / 256, p.port % 256] ++
        (encodeVarInt p.nextState ++ rest)) :=
    drop_chunk b.data (b.offset + (encodeVarInt p.protocolVersion).length)
      (encodeVarInt p.serverAddress.length).length
      (encodeVarInt p.serverAddress.length) _ d1 rfl
  have h3 := readBytes_drop
    ⟨b.data, b.offset + (encodeVarInt p.protocolVersion).length +
      (encodeVarInt p.serverAddress.length).length⟩
    p.serverAddress
    ([p.port / 256, p.port % 256] ++ (encodeVarInt p.nextState ++ rest)) d2
  have d3 : b.data.drop (b.offset + (encodeVarInt p.protocolVersion).length +
      (encodeVarInt p.serverAddress.length).length +
      p.serverAddress.length) =
      [p.port / 256, p.port % 256] ++ (encodeVarInt p.nextState ++ rest) :=
    drop_chunk b.data
      (b.offset + (encodeVarInt p.protocolVersion).length +
        (encodeVarInt p.serverAddress.length).length)
      p.serverAddress.length p.serverAddress _ d2 rfl
  have h4 := readU16_drop
    ⟨b.data, b.offset + (encodeVarInt p.protocolVersion).length +
      (encodeVarInt p.serverAddress.length).length + p.serverAddress.length⟩
    p.port (encodeVarInt p.nextState ++ rest) hport d3
  have d4 : b.data.drop (b.offset + (encodeVarInt p.protocolVersion).length +
      (encodeVarInt p.serverAddress.length).length +
      p.serverAddress.length + 2) = encodeVarInt p.nextState ++ rest :=
    drop_chunk b.data
      (b.offset + (encodeVarInt p.protocolVersion).length +
        (encodeVarInt p.serverAddress.length).length + p.serverAddress.length)
      2 [p.port / 256, p.port % 256] _ d3 rfl
  have h5 := readVarInt_drop
    ⟨b.data, b.offset + (encodeVarInt p.protocolVersion).length +
      (encodeVarInt p.serverAddress.length).length + p.serverAddress.length +
      2⟩
    p.nextState rest hns d4
  unfold HandshakePacket.deserializeBody
  simp only [h1, h2, h3, h4, h5]
  have hoff : b.offset + p.serialize.length =
      b.offset + (encodeVarInt p.protocolVersion).length +
        (encodeVarInt p.serverAddress.length).length +
        p.serverAddress.length + 2 + (encodeVarInt p.nextState).length := by
    simp only [HandshakePacket.serialize, List.length_append,
      List.length_cons, List.length_nil]
    omega
  rw [hoff]

theorem CreatePacket_handshake_ok (p : HandshakePacket) (hp : p.wf)
    (rest : List Nat) :
    CreatePacket .Handshake ⟨handshakeMessage p ++ rest, 0⟩
        (handshakeMessage p).length =
      (.packet (.Handshake p),
        ⟨handshakeMessage p ++ rest, (handshakeMessage p).length⟩) := by
  have h0 : (handshakeMessage p ++ rest).drop 0 =
      encodeVarInt 0 ++ (p.serialize ++ rest) := by
    simp [handshakeMessage, List.append_assoc]
  have h1 := readVarInt_drop ⟨handshakeMessage p ++ rest, 0⟩ 0
    (p.serialize ++ rest) (by norm_num) h0
  have d1 : (handshakeMessage p ++ rest).drop (0 + (encodeVarInt 0).length) =
      p.serialize ++ rest :=
    drop_chunk (handshakeMessage p ++ rest) 0 (encodeVarInt 0).length
      (encodeVarInt 0) _ h0 rfl
  have h2 := deserializeBody_serialize p hp
    ⟨handshakeMessage p ++ rest, 0 + (encodeVarInt 0).length⟩ rest d1
  have hlook : PacketRegistry.lookup ProtocolState.Handshake 0 =
      some handshakeCtor := rfl
  unfold CreatePacket
  simp only [h1, hlook, handshakeCtor, h2]
  have hconsumed : 0 + (encodeVarInt 0).length + p.serialize.length - 0 =
      (handshakeMessage p).length := by
    simp only [handshakeMessage, List.length_append]
    omega
  rw [hconsumed, if_pos rfl]
  have hoff2 : 0 + (encodeVarInt 0).length + p.serialize.length =
      (handshakeMessage p).length := by
    simp only [handshakeMessage, List.length_append]
    omega
  rw [hoff2]

/-! ### Helper lemmas: cursor safety -/

theorem readBytes_oob (b : DataBuffer) (n : Nat) (h : b.remaining < n) :
    b.readBytes n = (.error .OutOfBounds, b) := by
  unfold DataBuffer.readBytes
  rw [if_pos h]

theorem readFixed_oob (b : DataBuffer) (n : Nat) (h : b.remaining < n) :
    b.readFixed n = (.error .OutOfBounds, b) := by
  unfold DataBuffer.readFixed
  rw [if_pos h]

theorem readVarInt_error_eq (b : DataBuffer) (e : DecodeError)
    (b1 : DataBuffer) (h : b.readVarInt = (.error e, b1)) : b1 = b := by
  unfold DataBuffer.readVarInt at h
  cases hc : decodeVarIntCore (b.data.drop b.offset) 0 0 with
  | error e2 =>
    rw [hc] at h
    simp only [Prod.mk.injEq] at h
    exact h.2.symm
  | ok val =>
    cases val with
    | mk v n =>
      rw [hc] at h
      simp only [Prod.mk.injEq] at h
      exact absurd h.1 (by simp)

theorem readString_error_eq (b : DataBuffer) (m : Nat) (e : DecodeError)
    (b1 : DataBuffer) (h : b.readString m = (.error e, b1)) : b1 = b := by
  unfold DataBuffer.readString at h
  cases hv : b.readVarInt with
  | mk r1 bb =>
    rw [hv] at h
    cases r1 with
    | error e1 =>
      simp only [Prod.mk.injEq] at h
      exact h.2.symm
    | ok len =>
      by_cases hm : m < len
      · simp only [if_pos hm, Prod.mk.injEq] at h
        exact h.2.symm
      · simp only [if_neg hm] at h
        cases hb : bb.readBytes len with
        | mk r2 b2 =>
          rw [hb] at h
          cases r2 with
          | error e2 =>
            simp only [Prod.mk.injEq] at h
            exact h.2.symm
          | ok s =>
            simp only [Prod.mk.injEq] at h
            exact absurd h.1 (by simp)

theorem decodeVarIntCore_consumed (l : List Nat) :
    ∀ i acc v n, decodeVarIntCore l i acc = .ok (v, n) →
      i < n ∧ n - i ≤ l.length := by
  induction l with
  | nil =>
    intro i acc v n h
    rw [decodeVarIntCore_nil] at h
    by_cases h5 : 5 ≤ i
    · rw [if_pos h5] at h; cases h
    · rw [if_neg h5] at h; cases h
  | cons byte rest ih =>
    intro i acc v n h
    rw [decodeVarIntCore_cons] at h
    by_cases h5 : 5 ≤ i
    · rw [if_pos h5] at h; cases h
    · rw [if_neg h5] at h
      by_cases hsmall : byte % 256 < 128
      · rw [if_pos hsmall] at h
        have hn : n = i + 1 := by
          have := h
          simp only [Except.ok.injEq, Prod.mk.injEq] at this
          omega
        subst hn
        constructor
        · omega
        · simp only [List.length_cons]
          omega
      · rw [if_neg hsmall] at h
        have := ih (i + 1) (acc + (byte % 256 - 128) * 128 ^ i) v n h
        constructor
        · omega
        · simp only [List.length_cons]
          omega

theorem readBytes_inv (b : DataBuffer) (n : Nat)
    (r : Except DecodeError (List Nat)) (b1 : DataBuffer)
    (hob : b.offset ≤ b.length) (h : b.readBytes n = (r, b1)) :
    b1.offset ≤ b1.length := by
  unfold DataBuffer.readBytes at h
  by_cases hrem : b.remaining < n
  · rw [if_pos hrem] at h
    simp only [Prod.mk.injEq] at h
    rw [← h.2]
    exact hob
  · rw [if_neg hrem] at h
    simp only [Prod.mk.injEq] at h
    rw [← h.2]
    unfold DataBuffer.remaining at hrem
    unfold DataBuffer.length at hob hrem ⊢
    simp only
    omega

theorem readFixed_inv (b : DataBuffer) (n : Nat)
    (r : Except DecodeError Nat) (b1 : DataBuffer)
    (hob : b.offset ≤ b.length) (h : b.readFixed n = (r, b1)) :
    b1.offset ≤ b1.length := by
  unfold DataBuffer.readFixed at h
  by_cases hrem : b.remaining < n
  · rw [if_pos hrem] at h
    simp only [Prod.mk.injEq] at h
    rw [← h.2]
    exact hob
  · rw [if_neg hrem] at h
    simp only [Prod.mk.injEq] at h
    rw [← h.2]
    unfold DataBuffer.remaining at hrem
    unfold DataBuffer.length at hob hrem ⊢
    simp only
    omega

theorem readVarInt_inv (b : DataBuffer) (r : Except DecodeError Nat)
    (b1 : DataBuffer) (hob : b.offset ≤ b.length)
    (h : b.readVarInt = (r, b1)) : b1.offset ≤ b1.length := by
  unfold DataBuffer.readVarInt at h
  cases hc : decodeVarIntCore (b.data.drop b.offset) 0 0 with
  | error e =>
    rw [hc] at h
    simp only [Prod.mk.injEq] at h
    rw [← h.2]
    exact hob
  | ok val =>
    cases val with
    | mk v n =>
      rw [hc] at h
      simp only [Prod.mk.injEq] at h
      rw [← h.2]
      have hcons := decodeVarIntCore_consumed (b.data.drop b.offset) 0 0 v n hc
      have hlen : (b.data.drop b.offset).length = b.data.length - b.offset :=
        List.length_drop b.offset b.data
      unfold DataBuffer.length at hob ⊢
      simp only
      omega

theorem readString_inv (b : DataBuffer) (m : Nat)
    (r : Except DecodeError (List Nat)) (b1 : DataBuffer)
    (hob : b.offset ≤ b.length) (h : b.readString m = (r, b1)) :
    b1.offset ≤ b1.length := by
  unfold DataBuffer.readString at h
  cases hv : b.readVarInt with
  | mk r1 bb =>
    rw [hv] at h
    cases r1 with
    | error e1 =>
      simp only [Prod.mk.injEq] at h
      rw [← h.2]
      exact hob
    | ok len =>
      have hbb : bb.offset ≤ bb.length := readVarInt_inv b (.ok len) bb hob hv
      by_cases hm : m < len
      · simp only [if_pos hm, Prod.mk.injEq] at h
        rw [← h.2]
        exact hob
      · simp only [if_neg hm] at h
        cases hb : bb.readBytes len with
        | mk r2 b2 =>
          rw [hb] at h
          have hb2 : b2.offset ≤ b2.length := readBytes_inv bb len r2 b2 hbb hb
          cases r2 with
          | error e2 =>
            simp only [Prod.mk.injEq] at h
            rw [← h.2]
            exact hob
          | ok s =>
            simp only [Prod.mk.injEq] at h
            rw [← h.2]
            exact hb2

/-! ### Helper lemmas: vectors -/

theorem wrap64_add_sub (a b : Int) (h1 : -9223372036854775808 ≤ a)
    (h2 : a < 9223372036854775808) : wrap64 (wrap64 (a + b) - b) = a := by
  unfold wrap64
  omega

theorem lt_iff_lexZYX (v1 v2 : Vector3i) :
    v1.lt v2 = true ↔ v1.lexZYX v2 := by
  unfold Vector3i.lt Vector3i.lexZYX
  split_ifs with h1 h2 h3 h4 h5 <;> simp <;> omega

/-! ### Claim theorems -/

/-- Claim C1: when the leading id decodes successfully but the registry has
no entry for (state, id), CreatePacket returns the distinguished
unrecognized-packet result carrying the raw id and the state — data, not an
error. -/
theorem claim1_unrecognized_carries_id_and_state
    (state : ProtocolState) (data : DataBuffer) (length id : Nat)
    (b1 : DataBuffer)
    (hid : data.readVarInt = (.ok id, b1))
    (hnone : PacketRegistry.lookup state id = none) :
    (CreatePacket state data length).1 = .unrecognized state id := by
  unfold CreatePacket
  simp only [hid, hnone]

/-- Witness for C1: a Play-state message with id 5, which has no registry
entry, yields the unrecognized result carrying (Play, 5). -/
theorem claim1_witness :
    DataBuffer.readVarInt ⟨[5], 0⟩ = (.ok 5, ⟨[5], 1⟩) ∧
    PacketRegistry.lookup .Play 5 = none ∧
    (CreatePacket .Play ⟨[5], 0⟩ 1).1 = .unrecognized .Play 5 :=
  ⟨rfl, rfl,
    claim1_unrecognized_carries_id_and_state .Play ⟨[5], 0⟩ 1 5 ⟨[5], 1⟩
      rfl rfl⟩

/-- Claim C2: the registry of the modelled catalogue holds exactly the
(Handshake, 0x00) entry, and for it CreatePacket applied to a correctly
encoded payload returns a Handshake packet whose fields equal the encoded
values — encode followed by decode reproduces the original fields. -/
theorem claim2_roundtrip :
    (∀ state id, (PacketRegistry.lookup state id).isSome = true ↔
      (state = ProtocolState.Handshake ∧ id = 0)) ∧
    (∀ p : HandshakePacket, p.wf → ∀ rest,
      CreatePacket .Handshake ⟨handshakeMessage p ++ rest, 0⟩
          (handshakeMessage p).length =
        (.packet (.Handshake p),
          ⟨handshakeMessage p ++ rest, (handshakeMessage p).length⟩)) := by
  constructor
  · intro state id
    cases state <;> cases id <;>
      simp [PacketRegistry.lookup, Option.isSome]
  · intro p hp rest
    exact CreatePacket_handshake_ok p hp rest

/-- The §8 concrete scenario packet: protocol version 754, server address
the ASCII bytes of play.example.com, port 25565, next state 2. -/
def scenarioPacket : HandshakePacket :=
  ⟨754, [112, 108, 97, 121, 46, 101, 120, 97, 109, 112, 108, 101, 46, 99,
    111, 109], 25565, 2⟩

/-- Witness for C2: the §8 scenario message decodes back to exactly the
scenario packet, consuming the entire declared length. -/
theorem claim2_witness :
    scenarioPacket.wf ∧
    CreatePacket .Handshake ⟨handshakeMessage scenarioPacket, 0⟩
        (handshakeMessage scenarioPacket).length =
      (.packet (.Handshake scenarioPacket),
        ⟨handshakeMessage scenarioPacket,
          (handshakeMessage scenarioPacket).length⟩) := by
  refine ⟨by decide, ?_⟩
  have h := claim2_roundtrip.2 scenarioPacket (by decide) []
  simpa using h

/-- Claim C3: when the registry lookup succeeds and the packet's own
deserialization completes but consumed a byte count different from the
declared length, CreatePacket reports TrailingOrMissingData instead of
returning the packet. -/
theorem claim3_trailing_or_missing
    (state : ProtocolState) (data : DataBuffer) (length id : Nat)
    (b1 : DataBuffer)
    (ctor : DataBuffer → Except DecodeError Packet × DataBuffer)
    (p : Packet) (b2 : DataBuffer)
    (hid : data.readVarInt = (.ok id, b1))
    (hctor : PacketRegistry.lookup state id = some ctor)
    (hrun : ctor b1 = (.ok p, b2))
    (hlen : b2.offset - data.offset ≠ length) :
    (CreatePacket state data length).1 = .failure .TrailingOrMissingData := by
  unfold CreatePacket
  simp only [hid, hctor, hrun]
  rw [if_neg hlen]

/-- Witness for C3: a well-formed 6-byte Handshake message presented with a
declared length of 7 is rejected with TrailingOrMissingData. -/
theorem claim3_witness :
    (CreatePacket .Handshake ⟨[0, 0, 0, 0, 0, 0], 0⟩ 7).1 =
      .failure .TrailingOrMissingData :=
  claim3_trailing_or_missing .Handshake ⟨[0, 0, 0, 0, 0, 0], 0⟩ 7 0
    ⟨[0, 0, 0, 0, 0, 0], 1⟩ handshakeCtor (.Handshake ⟨0, [], 0, 0⟩)
    ⟨[0, 0, 0, 0, 0, 0], 6⟩ rfl rfl rfl (by decide)

/-- Claim C4: every cursor read that requires more bytes than remain fails
with OutOfBounds and leaves the offset unchanged; on any failure of the
compound reads the cursor is restored; and the invariant offset ≤ length is
preserved by every read, successful or failed. -/
theorem claim4_cursor_bounds :
    (∀ (b : DataBuffer) (n : Nat), b.remaining < n →
      b.readBytes n = (.error .OutOfBounds, b)) ∧
    (∀ (b : DataBuffer) (n : Nat), b.remaining < n →
      b.readFixed n = (.error .OutOfBounds, b)) ∧
    (∀ b : DataBuffer, b.remaining < 1 →
      b.readU8 = (.error .OutOfBounds, b)) ∧
    (∀ b : DataBuffer, b.remaining < 2 →
      b.readU16 = (.error .OutOfBounds, b)) ∧
    (∀ b : DataBuffer, b.remaining < 4 →
      b.readU32 = (.error .OutOfBounds, b)) ∧
    (∀ b : DataBuffer, b.remaining < 8 →
      b.readU64 = (.error .OutOfBounds, b)) ∧
    (∀ (b : DataBuffer) (e : DecodeError) (b1 : DataBuffer),
      b.readVarInt = (.error e, b1) → b1 = b) ∧
    (∀ (b : DataBuffer) (m : Nat) (e : DecodeError) (b1 : DataBuffer),
      b.readString m = (.error e, b1) → b1 = b) ∧
    (∀ (b : DataBuffer) (n : Nat) (r : Except DecodeError (List Nat))
      (b1 : DataBuffer), b.offset ≤ b.length → b.readBytes n = (r, b1) →
      b1.offset ≤ b1.length) ∧
    (∀ (b : DataBuffer) (n : Nat) (r : Except DecodeError Nat)
      (b1 : DataBuffer), b.offset ≤ b.length → b.readFixed n = (r, b1) →
      b1.offset ≤ b1.length) ∧
    (∀ (b : DataBuffer) (r : Except DecodeError Nat) (b1 : DataBuffer),
      b.offset ≤ b.length → b.readVarInt = (r, b1) →
      b1.offset ≤ b1.length) ∧
    (∀ (b : DataBuffer) (m : Nat) (r : Except DecodeError (List Nat))
      (b1 : DataBuffer), b.offset ≤ b.length → b.readString m = (r, b1) →
      b1.offset ≤ b1.length) :=
  ⟨readBytes_oob, readFixed_oob,
    fun b h => readFixed_oob b 1 h,
    fun b h => readFixed_oob b 2 h,
    fun b h => readFixed_oob b 4 h,
    fun b h => readFixed_oob b 8 h,
    readVarInt_error_eq, readString_error_eq,
    readBytes_inv, readFixed_inv, readVarInt_inv, readString_inv⟩

/-- Witness for C4: concrete out-of-bounds reads leave a two-byte cursor
unchanged; a successful one-byte read keeps offset within bounds. -/
theorem claim4_witness :
    DataBuffer.readBytes ⟨[1, 2], 0⟩ 3 = (.error .OutOfBounds, ⟨[1, 2], 0⟩) ∧
    DataBuffer.readU32 ⟨[1, 2], 0⟩ = (.error .OutOfBounds, ⟨[1, 2], 0⟩) ∧
    (⟨[1, 2], 1⟩ : DataBuffer).offset ≤ (⟨[1, 2], 1⟩ : DataBuffer).length :=
  ⟨claim4_cursor_bounds.1 ⟨[1, 2], 0⟩ 3 (by decide),
    claim4_cursor_bounds.2.2.2.2.1 ⟨[1, 2], 0⟩ (by decide),
    claim4_cursor_bounds.2.2.2.2.2.2.2.2.1 ⟨[1, 2], 0⟩ 1 (.ok [1])
      ⟨[1, 2], 1⟩ (by decide) rfl⟩

/-- Claim C5: a varint whose bytes all carry the continuation bit fails —
with MalformedHeader when five or more bytes remain (the maximum byte
count), with OutOfBounds when the buffer ends first — leaving the cursor
unchanged; and every 32-bit value round-trips through encode then
readVarInt. -/
theorem claim5_varint :
    (∀ b : DataBuffer, (∀ x ∈ (b.data.drop b.offset).take 5, 128 ≤ x % 256) →
      b.readVarInt =
        (.error (if 5 ≤ b.remaining then .MalformedHeader else .OutOfBounds),
          b)) ∧
    (∀ v, v < 2 ^ 32 → ∀ rest,
      DataBuffer.readVarInt ⟨encodeVarInt v ++ rest, 0⟩ =
        (.ok v, ⟨encodeVarInt v ++ rest, (encodeVarInt v).length⟩)) :=
  ⟨readVarInt_allCont,
    fun v hv rest => by
      have h := readVarInt_drop ⟨encodeVarInt v ++ rest, 0⟩ v rest hv (by simp)
      simpa using h⟩

/-- Witness for C5: five continuation bytes fail with MalformedHeader, one
lone continuation byte fails with OutOfBounds, and 300 round-trips. -/
theorem claim5_witness :
    DataBuffer.readVarInt ⟨[128, 128, 128, 128, 128], 0⟩ =
      (.error .MalformedHeader, ⟨[128, 128, 128, 128, 128], 0⟩) ∧
    DataBuffer.readVarInt ⟨[128], 0⟩ =
      (.error .OutOfBounds, ⟨[128], 0⟩) ∧
    DataBuffer.readVarInt ⟨encodeVarInt 300, 0⟩ =
      (.ok 300, ⟨encodeVarInt 300, (encodeVarInt 300).length⟩) := by
  refine ⟨?_, ?_, ?_⟩
  · have h := claim5_varint.1 ⟨[128, 128, 128, 128, 128], 0⟩ (by decide)
    simpa using h
  · have h := claim5_varint.1 ⟨[128], 0⟩ (by decide)
    simpa using h
  · have h := claim5_varint.2 300 (by norm_num) []
    simpa using h

/-- Claim C6: when reading the leading id fails, CreatePacket fails with
MalformedHeader for this message only — no packet and no unrecognized
result is produced (no registry lookup or construction is observable), and
the cursor is handed back unchanged so later messages are unaffected. -/
theorem claim6_malformed_header
    (state : ProtocolState) (data : DataBuffer) (length : Nat)
    (e : DecodeError) (b1 : DataBuffer)
    (hfail : data.readVarInt = (.error e, b1)) :
    (CreatePacket state data length).1 = .failure .MalformedHeader ∧
    (∀ p, (CreatePacket state data length).1 ≠ .packet p) ∧
    (∀ s id, (CreatePacket state data length).1 ≠ .unrecognized s id) ∧
    (CreatePacket state data length).2 = data := by
  have hmain : CreatePacket state data length =
      (.failure .MalformedHeader, b1) := by
    unfold CreatePacket
    simp only [hfail]
  have hb1 : b1 = data := readVarInt_error_eq data e b1 hfail
  refine ⟨by rw [hmain], ?_, ?_, by rw [hmain, hb1]⟩
  · intro p hc
    rw [hmain] at hc
    cases hc
  · intro s id hc
    rw [hmain] at hc
    cases hc

/-- Witness for C6: an empty buffer in Play state fails with
MalformedHeader and hands the buffer back unchanged. -/
theorem claim6_witness :
    (CreatePacket .Play ⟨[], 0⟩ 0).1 = .failure .MalformedHeader ∧
    (CreatePacket .Play ⟨[], 0⟩ 0).2 = (⟨[], 0⟩ : DataBuffer) :=
  ⟨(claim6_malformed_header .Play ⟨[], 0⟩ 0 .OutOfBounds ⟨[], 0⟩ rfl).1,
    (claim6_malformed_header .Play ⟨[], 0⟩ 0 .OutOfBounds ⟨[], 0⟩
      rfl).2.2.2⟩

/-- Claim C7: releasing a packet freshly returned by the factory restores
the set of live packets (no leak), and a second release of the same packet
is a no-op — never a double free. -/
theorem claim7_free_exactly_once (h : PacketHeap) (hwf : h.wfh) :
    (FreePacket (allocPacket h).2 (allocPacket h).1).live = h.live ∧
    FreePacket (FreePacket (allocPacket h).2 (allocPacket h).1)
        (allocPacket h).1 =
      FreePacket (allocPacket h).2 (allocPacket h).1 := by
  have hnot : h.next ∉ h.live := fun hc => absurd (hwf h.next hc) (by omega)
  have h1 : FreePacket (allocPacket h).2 (allocPacket h).1 =
      ⟨h.live, h.next + 1⟩ := by
    unfold FreePacket allocPacket
    simp only
    rw [if_pos (List.mem_cons_self _ _)]
    rw [List.erase_cons_head]
  refine ⟨by rw [h1], ?_⟩
  rw [h1]
  unfold FreePacket
  simp only
  rw [if_neg (show (allocPacket h).1 ∉ h.live from hnot)]

/-- Witness for C7: in the empty heap, allocating then freeing leaves no
live packet, and the second free is a no-op. -/
theorem claim7_witness :
    (FreePacket (allocPacket ⟨[], 0⟩).2 (allocPacket ⟨[], 0⟩).1).live =
      ([] : List Nat) ∧
    FreePacket (FreePacket (allocPacket ⟨[], 0⟩).2 (allocPacket ⟨[], 0⟩).1)
        (allocPacket ⟨[], 0⟩).1 =
      FreePacket (allocPacket ⟨[], 0⟩).2 (allocPacket ⟨[], 0⟩).1 :=
  claim7_free_exactly_once ⟨[], 0⟩
    (fun q hq => absurd hq (List.not_mem_nil q))

/-- Claim C8: the Dropper is one concrete type composing exactly the base
block entity (built from a type and a position), the inventory capability
and the nameable capability — its state is nothing but those three parts,
so it holds no reference into the decode core — and ImportNBT reports
whether importing the structured-tag content succeeded (it succeeds exactly
on compound tags). -/
theorem claim8_dropper_composition :
    (∀ t pos, (Dropper.create t pos).toBlockEntity = ⟨t, pos⟩ ∧
      (Dropper.create t pos).toInventoryBlock = ⟨[]⟩ ∧
      (Dropper.create t pos).toNameable = ⟨none⟩) ∧
    (∀ d : Dropper,
      d = ⟨d.toBlockEntity, d.toInventoryBlock, d.toNameable⟩) ∧
    (∀ (d : Dropper) (n : NBT),
      (d.ImportNBT n).1 = true ↔ ∃ es, n = NBT.compound es) := by
  refine ⟨fun t pos => ⟨rfl, rfl, rfl⟩, fun d => rfl, fun d n => ?_⟩
  cases n with
  | compound es =>
    simp only [Dropper.ImportNBT]
    exact ⟨fun _ => ⟨es, rfl⟩, fun _ => trivial⟩
  | tagString s => simp [Dropper.ImportNBT]
  | tagInt v => simp [Dropper.ImportNBT]
  | tagList items => simp [Dropper.ImportNBT]

/-- Claim C9: with 64-bit two's-complement wrap-around arithmetic, adding
and then subtracting the same vector is the identity component-wise, even
when intermediate components overflow. -/
theorem claim9_add_sub_roundtrip (v1 v2 : Vector3i)
    (h1 : v1.isInt64) (h2 : v2.isInt64) :
    (v1.add v2).sub v2 = v1 := by
  obtain ⟨hx1, hx2, hy1, hy2, hz1, hz2⟩ := h1
  cases v1 with
  | mk x y z =>
    cases v2 with
    | mk a b c =>
      simp only [Vector3i.add, Vector3i.sub, Vector3i.mk.injEq]
      exact ⟨wrap64_add_sub x a hx1 hx2, wrap64_add_sub y b hy1 hy2,
        wrap64_add_sub z c hz1 hz2⟩

/-- Witness for C9: at the extreme int64 values the addition overflows and
wraps, yet subtracting the addend recovers the original vector. -/
theorem claim9_witness :
    (⟨9223372036854775807, -9223372036854775808, 0⟩ : Vector3i).isInt64 ∧
    (⟨1, -1, 5⟩ : Vector3i).isInt64 ∧
    Vector3i.add ⟨9223372036854775807, -9223372036854775808, 0⟩ ⟨1, -1, 5⟩ =
      ⟨-9223372036854775808, 9223372036854775807, 5⟩ ∧
    Vector3i.sub
        (Vector3i.add ⟨9223372036854775807, -9223372036854775808, 0⟩
          ⟨1, -1, 5⟩) ⟨1, -1, 5⟩ =
      ⟨9223372036854775807, -9223372036854775808, 0⟩ :=
  ⟨by decide, by decide, by decide,
    claim9_add_sub_roundtrip ⟨9223372036854775807, -9223372036854775808, 0⟩
      ⟨1, -1, 5⟩ (by decide) (by decide)⟩

/-- Claim C10: operator< returns true exactly when (z, y, x) is
lexicographically smaller — z first, then y, then x — and this makes it a
strict total order on Vector3i up to component-wise equality (asymmetric,
transitive, and total up to equality of all components). -/
theorem claim10_lt_is_lex_zyx :
    (∀ v1 v2 : Vector3i, v1.lt v2 = true ↔ v1.lexZYX v2) ∧
    (∀ v1 v2 : Vector3i, v1.lt v2 = true → v2.lt v1 = false) ∧
    (∀ v1 v2 v3 : Vector3i, v1.lt v2 = true → v2.lt v3 = true →
      v1.lt v3 = true) ∧
    (∀ v1 v2 : Vector3i, v1.lt v2 = false → v2.lt v1 = false →
      v1.x = v2.x ∧ v1.y = v2.y ∧ v1.z = v2.z) := by
  refine ⟨lt_iff_lexZYX, ?_, ?_, ?_⟩
  · intro v1 v2 h12
    cases hb : v2.lt v1 with
    | false => rfl
    | true =>
      exfalso
      have l1 := (lt_iff_lexZYX v1 v2).1 h12
      have l2 := (lt_iff_lexZYX v2 v1).1 hb
      unfold Vector3i.lexZYX at l1 l2
      omega
  · intro v1 v2 v3 h12 h23
    have l1 := (lt_iff_lexZYX v1 v2).1 h12
    have l2 := (lt_iff_lexZYX v2 v3).1 h23
    refine (lt_iff_lexZYX v1 v3).2 ?_
    unfold Vector3i.lexZYX at l1 l2 ⊢
    omega
  · intro v1 v2 hf1 hf2
    have n1 : ¬ v1.lexZYX v2 := by
      intro hl
      have := (lt_iff_lexZYX v1 v2).2 hl
      rw [hf1] at this
      cases this
    have n2 : ¬ v2.lexZYX v1 := by
      intro hl
      have := (lt_iff_lexZYX v2 v1).2 hl
      rw [hf2] at this
      cases this
    unfold Vector3i.lexZYX at n1 n2
    refine ⟨by omega, by omega, by omega⟩

/-- Witness for C10: concrete comparisons — (3,2,1) < (0,0,2) because z
decides first, and the reverse comparison is false. -/
theorem claim10_witness :
    Vector3i.lexZYX ⟨3, 2, 1⟩ ⟨0, 0, 2⟩ ∧
    Vector3i.lt ⟨0, 0, 2⟩ ⟨3, 2, 1⟩ = false :=
  ⟨(claim10_lt_is_lex_zyx.1 ⟨3, 2, 1⟩ ⟨0, 0, 2⟩).1 (by decide),
    claim10_lt_is_lex_zyx.2.1 ⟨3, 2, 1⟩ ⟨0, 0, 2⟩ (by decide)⟩

end Mclib
